import Mathlib

/-!
Verification of the marvel-form-automation repository.

This file shallowly embeds the data model and the operations of the
repository (src/types.ts, src/constants.ts, src/utils.ts,
src/parallel-processor.ts and the FormSubmitter class of
src/form-submitter.ts) as executable Lean definitions, and proves or
refutes the claims of the specification about them.

Modelling conventions:
- JavaScript arrays become `List`, objects become structures.
- JavaScript string operations (`includes`, `toLowerCase`) are modelled on
  the character list of the string.
- A function that can throw returns `Option`/`Except`.
- `new Date(s).getTime()` on the ISO `YYYY-MM-DD` date strings used by the
  repository is order-isomorphic to the number formed by the digits of the
  string; we model it by `dateVal` below.
- The stateful per-chunk processing loops are modelled as explicit
  recursions over the record list, parameterised by an oracle giving the
  outcome of each `submitPlay` call and of each page-reacquisition attempt,
  and they additionally emit the sequence of observable events.
-/

/-! ## Data model (src/types.ts) -/

structure HeroPlay where
  Hero : String
  Aspect : String
  Win : Nat
deriving Repr, DecidableEq

structure PlayData where
  Id : String
  Date : String
  Villain : String
  Difficulty : String
  Multiplayer : Bool
  True_Solo : Bool
  Heroes : List HeroPlay
  Modular_Sets : List String
deriving Repr, DecidableEq

structure DifficultySettings where
  standard : String
  expert : String
  heroic : String
  skirmish : String
deriving Repr, DecidableEq

structure ProcessingResult where
  success : Nat
  failed : Nat
deriving Repr, DecidableEq

/-! ## String helpers

`jsIncludes s pat` models the JavaScript `s.includes(pat)` (substring
containment); `lowerChars` models `s.toLowerCase()` on the character list.
-/

/-- `leadMatch pat l` is true iff `pat` occurs at the head of `l`. -/
def leadMatch : List Char → List Char → Bool
  | [], _ => true
  | _ :: _, [] => false
  | a :: as, b :: bs => a == b && leadMatch as bs

/-- `occursIn pat l` is true iff `pat` occurs contiguously somewhere in `l`. -/
def occursIn (pat : List Char) : List Char → Bool
  | [] => leadMatch pat []
  | b :: bs => leadMatch pat (b :: bs) || occursIn pat bs

/-- JavaScript `s.includes(pat)`. -/
def jsIncludes (s pat : String) : Bool :=
  occursIn pat.toList s.toList

/-- JavaScript `s.toLowerCase()`, on the character list. -/
def lowerChars (s : String) : List Char :=
  s.toList.map Char.toLower

/-- Substring test against an already lowercased character list. -/
def lowerIncludes (chars : List Char) (pat : String) : Bool :=
  occursIn pat.toList chars

/-- Value of `new Date(s).getTime()` up to order, for the ISO date strings
used by the repository: the number formed by the digits of the string. -/
def dateVal (s : String) : Nat :=
  s.toList.foldl (fun acc c => if c.isDigit then acc * 10 + (c.toNat - 48) else acc) 0

/-! ## Constants (src/constants.ts) -/

def HERO_NAME_MAPPINGS : List (String × String) :=
  [("Spider Man", "Spider-Man (Peter Parker)"),
   ("Spider-Man", "Spider-Man (Peter Parker)"),
   ("Black Panther", "Black Panther (T\x27Challa)"),
   ("Miles Morales", "Spider-Man (Miles Morales)"),
   ("Ant Man", "Ant-Man"),
   ("Star Lord", "Star-Lord"),
   ("Ghost Spider", "Ghost-Spider"),
   ("Iron Heart", "Ironheart"),
   ("Sp//der", "SP//dr"),
   ("Spider Ham", "Spider-Ham"),
   ("Spider Woman", "Spider-Woman")]

def VILLAIN_NAME_MAPPINGS : List (String × String) :=
  [("The Collector - Infiltrate the Museum", "Infiltrate the Museum"),
   ("The Collector - Escape the Museum", "Escape the Museum"),
   ("The Hood Villain", "The Hood"),
   ("Norman Osborn", "Risky Business"),
   ("Green Goblin", "Mutagen Formula"),
   ("Green Goblin - Mutagen Formula", "Mutagen Formula"),
   ("Green Goblin - Risky Business", "Risky Business"),
   ("Amin Zola", "Zola"),
   ("Magneto Villain", "Magneto"),
   ("Nebula Villain", "Nebula"),
   ("Ronan", "Ronan the Accuser"),
   ("Sinister Six", "The Sinister Six"),
   ("Venom Villain", "Venom"),
   ("Magog", "MaGog"),
   ("Drang", "Brotherhood of Badoon")]

def SCENARIOS_WITHOUT_MODULAR_PAGE : List String :=
  ["Wrecking Crew"]

/-- JavaScript `TABLE[name] || name` on the mapping tables. -/
def lookupName (table : List (String × String)) (name : String) : String :=
  match table.lookup name with
  | some v => v
  | none => name

/-! ## src/utils.ts -/

/-- The slicing loop of `chunkArray`:
`for (let i = 0; i < array.length; i += chunkSize) chunks.push(array.slice(i, i + chunkSize))`.
(The `size = 0` guard is unreachable from `chunkArray`, which only calls
this with a positive size; it is needed to make the recursion well founded.) -/
def sliceChunks (l : List α) (size : Nat) : List (List α) :=
  if h : size = 0 then []
  else if hl : l.isEmpty then []
  else l.take size :: sliceChunks (l.drop size) size
termination_by l.length
decreasing_by
  simp only [List.length_drop]
  have : l ≠ [] := by simpa [List.isEmpty_iff] using hl
  have : 0 < l.length := List.length_pos.mpr this
  omega

/-- `chunkArray` (src/utils.ts lines 8-25).  Throwing (`numChunks <= 0`)
is modelled by `none`; `Math.ceil(array.length / numChunks)` is
`(array.length + numChunks - 1) / numChunks` on `Nat`. -/
def chunkArray (array : List α) (numChunks : Nat) : Option (List (List α)) :=
  if numChunks = 0 then none
  else if array.length ≤ numChunks then
    some (array.map fun item => [item])
  else
    some (sliceChunks array ((array.length + numChunks - 1) / numChunks))

/-- `mapSpiderWomanAspects` (src/utils.ts lines 31-56). -/
def mapSpiderWomanAspects (aspect : String) : String :=
  let aspectLower := lowerChars aspect
  let hasAggression := lowerIncludes aspectLower "aggression"
  let hasJustice := lowerIncludes aspectLower "justice"
  let hasLeadership := lowerIncludes aspectLower "leadership"
  let hasProtection := lowerIncludes aspectLower "protection"
  let hasBasic := lowerIncludes aspectLower "basic" || lowerIncludes aspectLower "pool"
  if hasAggression && hasJustice then "Aggression and Justice"
  else if hasAggression && hasLeadership then "Aggression and Leadership"
  else if hasAggression && hasProtection then "Aggression and Protection"
  else if hasJustice && hasLeadership then "Justice and Leadership"
  else if hasJustice && hasProtection then "Justice and Protection"
  else if hasLeadership && hasProtection then "Leadership and Protection"
  else if hasAggression && hasBasic then "Aggression and Pool"
  else if hasJustice && hasBasic then "Justice and Pool"
  else if hasLeadership && hasBasic then "Leadership and Pool"
  else if hasProtection && hasBasic then "Pool and Protection"
  else aspect

/-- `parseDifficulty` (src/utils.ts lines 61-91). -/
def parseDifficulty (difficulty : String) : DifficultySettings :=
  if difficulty = "Heroic" then
    { standard := "Standard (Core Set)", expert := "None", heroic := "1", skirmish := "" }
  else
    { standard :=
        if jsIncludes difficulty "S3" then "Standard III (Age of Apocalypse campaign box)"
        else if jsIncludes difficulty "S2" then "Standard II (The Hood scenario pack)"
        else "Standard (Core Set)",
      expert :=
        if jsIncludes difficulty "E2" then "Expert II (The Hood scenario pack)"
        else if jsIncludes difficulty "E1" then "Expert (Core Set)"
        else "None",
      heroic := "",
      skirmish := "" }

/-! ## src/parallel-processor.ts : filterPlays -/

/-- A JavaScript `array.filter(pred)` whose callback increments a skip
counter on every rejected element: returns the kept elements (in order)
and the number of rejected ones. -/
def filterCount (pred : α → Bool) : List α → List α × Nat
  | [] => ([], 0)
  | x :: xs =>
    let (ys, n) := filterCount pred xs
    if pred x then (x :: ys, n) else (ys, n + 1)

/-- Rejection rule 1 of `filterPlays`: some hero has the "Basic"
(no-selection) aspect. -/
def hasBasicAspect (play : PlayData) : Bool :=
  play.Heroes.any fun h => h.Aspect == "Basic"

/-- Keep condition 2 of `filterPlays`: the scenario does not use modular
sets, or the modular set list is non-empty. -/
def keepModular (play : PlayData) : Bool :=
  SCENARIOS_WITHOUT_MODULAR_PAGE.contains play.Villain || !play.Modular_Sets.isEmpty

/-- Keep condition 3 of `filterPlays`: the play date is not before the
start date (`!(playDate < startDateObj)`). -/
def keepDate (startDate : String) (play : PlayData) : Bool :=
  !(dateVal play.Date < dateVal startDate)

/-- The ascending-by-date comparator of the final `filteredPlays.sort`. -/
def dateLe (a b : PlayData) : Bool :=
  dateVal a.Date ≤ dateVal b.Date

structure FilterStats where
  total : Nat
  skippedBasicAspect : Nat
  skippedEmptyModular : Nat
  skippedBeforeDate : Nat
deriving Repr, DecidableEq

structure FilterResult where
  playsToProcess : List PlayData
  stats : FilterStats
deriving Repr, DecidableEq

/-- `filterPlays` (src/parallel-processor.ts lines 12-70).  The optional
`startDate` argument becomes an `Option`; the final `Array.prototype.sort`
(stable since ES2019) becomes the stable `List.mergeSort`. -/
def filterPlays (allPlays : List PlayData) (startDate : Option String) : FilterResult :=
  let (playsWithAspect, skippedBasicAspect) := filterCount (fun p => !hasBasicAspect p) allPlays
  let (playsWithModular, skippedEmptyModular) := filterCount keepModular playsWithAspect
  let (playsAfterDate, skippedBeforeDate) :=
    match startDate with
    | none => (playsWithModular, 0)
    | some d => filterCount (keepDate d) playsWithModular
  let playsToProcess := playsAfterDate.mergeSort dateLe
  { playsToProcess := playsToProcess,
    stats :=
      { total := allPlays.length,
        skippedBasicAspect := skippedBasicAspect,
        skippedEmptyModular := skippedEmptyModular,
        skippedBeforeDate := skippedBeforeDate } }

/-! ## src/parallel-processor.ts : worker-count / chunking step of
`processPlaysInParallel` (lines 100-115) -/

inductive ParallelChunks where
  | noPlays
  | chunks (cs : List (List PlayData))
  | chunkArrayError
deriving Repr, DecidableEq

/-- The chunking step of `processPlaysInParallel`:
`numWorkers = Math.min(maxWorkers, playsToProcess.length)`; if it is zero
the function returns early ("No plays to process."), otherwise
`chunkArray(playsToProcess, numWorkers)` is called, whose throwing branch
is `chunkArrayError`. -/
def parallelChunking (playsToProcess : List PlayData) (maxWorkers : Nat) : ParallelChunks :=
  let numWorkers := min maxWorkers playsToProcess.length
  if numWorkers = 0 then .noPlays
  else
    match chunkArray playsToProcess numWorkers with
    | some cs => .chunks cs
    | none => .chunkArrayError

/-! ## The per-chunk and sequential processing loops

`FormSubmitter.processPlaysChunk` (src/form-submitter.ts lines 386-430)
and the record loop of `processPlaysSequentially`
(src/parallel-processor.ts lines 190-220).

The loops are driven by the boolean outcome of each `submitPlay` call,
modelled by an oracle `outcome : PlayData → Bool`, and (for the chunk
loop) by the success of each page-reacquisition attempt, modelled by an
oracle `reacquire : Nat → Bool` giving the outcome of the n-th recovery
attempt.  Besides the `(success, failed)` counters the loops emit the
sequence of observable events. -/

inductive ChunkEv where
  /-- A `submitPlay` call on the record with the given id, and its result. -/
  | attempt (id : String) (ok : Bool)
  /-- A page-reacquisition attempt and its result. -/
  | reacquire (ok : Bool)
deriving Repr, DecidableEq

structure RunResult where
  success : Nat
  failed : Nat
  trace : List ChunkEv
deriving Repr, DecidableEq

/-- One iteration's leading consecutive-failure check in
`processPlaysChunk`: at the threshold it attempts recovery, giving either
the updated (recovery-attempt index, counter) state or `none` when page
reacquisition fails (the loop then breaks). Below the threshold it is a
no-op. -/
def chunkRecoveryStep (reacquire : Nat → Bool) (r cf : Nat) :
    Option (Nat × Nat × List ChunkEv) :=
  if 3 ≤ cf then
    if reacquire r then some (r + 1, 0, [ChunkEv.reacquire true])
    else none
  else some (r, cf, [])

/-- `FormSubmitter.processPlaysChunk` record loop.  Arguments: remaining
plays, recovery-attempt index `r`, `successCount`, `failureCount`,
`consecutiveFailures`. -/
def processPlaysChunk (outcome : PlayData → Bool) (reacquire : Nat → Bool) :
    List PlayData → Nat → Nat → Nat → Nat → RunResult
  | [], _, s, f, _ => ⟨s, f, []⟩
  | p :: ps, r, s, f, cf =>
    match chunkRecoveryStep reacquire r cf with
    | none => ⟨s, f, [ChunkEv.reacquire false]⟩
    | some (r2, cf2, evs) =>
      if outcome p then
        let rest := processPlaysChunk outcome reacquire ps r2 (s + 1) f 0
        ⟨rest.success, rest.failed, evs ++ ChunkEv.attempt p.Id true :: rest.trace⟩
      else
        let rest := processPlaysChunk outcome reacquire ps r2 s (f + 1) (cf2 + 1)
        ⟨rest.success, rest.failed, evs ++ ChunkEv.attempt p.Id false :: rest.trace⟩

/-- A whole-chunk run from the initial state. -/
def chunkRun (outcome : PlayData → Bool) (reacquire : Nat → Bool)
    (plays : List PlayData) : RunResult :=
  processPlaysChunk outcome reacquire plays 0 0 0 0

/-- The record loop of `processPlaysSequentially`: same per-record
processing and counting, but on reaching 3 consecutive failures it stops
("Too many consecutive failures. Stopping.") without any page
reacquisition. -/
def processPlaysSequentially (outcome : PlayData → Bool) :
    List PlayData → Nat → Nat → Nat → RunResult
  | [], s, f, _ => ⟨s, f, []⟩
  | p :: ps, s, f, cf =>
    if 3 ≤ cf then ⟨s, f, []⟩
    else if outcome p then
      let rest := processPlaysSequentially outcome ps (s + 1) f 0
      ⟨rest.success, rest.failed, ChunkEv.attempt p.Id true :: rest.trace⟩
    else
      let rest := processPlaysSequentially outcome ps s (f + 1) (cf + 1)
      ⟨rest.success, rest.failed, ChunkEv.attempt p.Id false :: rest.trace⟩

/-- A whole sequential run from the initial state. -/
def sequentialRun (outcome : PlayData → Bool) (plays : List PlayData) : RunResult :=
  processPlaysSequentially outcome plays 0 0 0

/-! ## FormSubmitter.submitPlay (src/form-submitter.ts lines 121-378)

The traversal is modelled in a state monad over an exception: the state
is (number of page-interaction primitives performed so far, list of
actions performed so far); a primitive throws according to the
environment oracle `Env.throws` applied to its index.  Presence probes
(`count()`, `isOnCampaignPage`, `isOnModularSetsPage`) never throw in the
source (they catch internally) and are modelled as boolean fields of the
environment. -/

/-- An observable page action of `submitPlay`. -/
inductive PageAction where
  | navigate
  | pageReady
  | pause (ms : Nat)
  /-- Click a radio control; `exact` records whether the exact-match
  locator was used (`true`) or the partial-match fallback. -/
  | clickRadio (label : String) (exact : Bool)
  | clickNext
  /-- Answer a yes/no question group. -/
  | answer (question response : String)
  | clickCheckbox (label : String) (exact : Bool)
  | clickSubmit
deriving Repr, DecidableEq

/-- Environment oracle for one `submitPlay` run. -/
structure Env where
  /-- Whether the n-th page-interaction primitive throws. -/
  throws : Nat → Bool
  /-- Whether an exact-match radio locator for this label has `count() > 0`. -/
  radioExact : String → Bool
  /-- Whether an exact-match checkbox locator for this label has `count() > 0`. -/
  checkboxExact : String → Bool
  /-- Whether a loose-match checkbox locator for this label has `count() > 0`. -/
  checkboxLoose : String → Bool
  /-- `isOnCampaignPage()`. -/
  campaignPage : Bool
  /-- `isOnModularSetsPage()`. -/
  modularPage : Bool
  /-- Whether the third/fourth-hero question group is present (`count() > 0`). -/
  heroQuestion : Nat → Bool

/-- State of a run: primitives performed so far, actions performed so far. -/
abbrev SubSt := Nat × List PageAction

/-- The exception-over-state monad of the traversal. -/
def StM (α : Type) : Type :=
  SubSt → Except String α × SubSt

instance : Monad StM where
  pure a := fun s => (Except.ok a, s)
  bind m f := fun s =>
    match m s with
    | (Except.ok a, s2) => f a s2
    | (Except.error e, s2) => (Except.error e, s2)

/-- JavaScript `throw`. -/
def throwErr (e : String) : StM α :=
  fun s => (Except.error e, s)

/-- JavaScript `try m catch (e) handler`: effects performed before the
exception are kept. -/
def tryCatchM (m : StM α) (handler : String → StM α) : StM α :=
  fun s =>
    match m s with
    | (Except.ok a, s2) => (Except.ok a, s2)
    | (Except.error e, s2) => handler e s2

/-- A page-interaction primitive: records the action and throws iff the
environment says this (the n-th) interaction fails. -/
def prim (env : Env) (a : PageAction) : StM Unit :=
  fun s =>
    let k := s.1
    let tr := s.2
    if env.throws k then (Except.error "interaction failure", (k + 1, tr ++ [a]))
    else (Except.ok (), (k + 1, tr ++ [a]))

/-- `for (const x of xs) ...`. -/
def forEach (f : α → StM Unit) : List α → StM Unit
  | [] => pure ()
  | x :: xs => do
    f x
    forEach f xs

/-- Navigation with single retry (lines 130-138):
`try { goto; waitForPageReady } catch { waitForTimeout(2000); goto; waitForPageReady }`. -/
def navigateWithRetry (env : Env) : StM Unit :=
  tryCatchM
    (do
      prim env PageAction.navigate
      prim env PageAction.pageReady)
    (fun _ => do
      prim env (PageAction.pause 2000)
      prim env PageAction.navigate
      prim env PageAction.pageReady)

/-- Radio selection with exact-match preferred and partial-match fallback
(the hero and villain selection pattern, lines 147-154). -/
def selectRadio (env : Env) (label : String) : StM Unit :=
  if env.radioExact label then prim env (PageAction.clickRadio label true)
  else prim env (PageAction.clickRadio label false)

/-- The additional-heroes loop (lines 192-232), from `i = 1`. -/
def selectExtraHeroes (env : Env) : Nat → List HeroPlay → StM Unit
  | _, [] => pure ()
  | i, heroData :: rest => do
    selectRadio env (lookupName HERO_NAME_MAPPINGS heroData.Hero)
    prim env PageAction.clickNext
    prim env PageAction.pageReady
    prim env (PageAction.clickRadio heroData.Aspect false)
    if env.heroQuestion i then
      prim env (PageAction.answer
        (if i = 1 then "Was there a third Hero" else "Was there a fourth Hero")
        (if rest.isEmpty then "No" else "Yes"))
    else pure ()
    prim env PageAction.clickNext
    prim env PageAction.pageReady
    selectExtraHeroes env (i + 1) rest

/-- Selection of one modular set (lines 280-301): exact match, else loose
match, else only a warning; the whole step is wrapped in its own
`try/catch` that downgrades any error to a warning. -/
def selectModularSet (env : Env) (modularSet : String) : StM Unit :=
  tryCatchM
    (if env.checkboxExact modularSet then prim env (PageAction.clickCheckbox modularSet true)
     else if env.checkboxLoose modularSet then prim env (PageAction.clickCheckbox modularSet false)
     else pure ())
    (fun _ => pure ())

/-- The difficulty page and final submission (lines 309-372).  Note the
unconditional `Submit` click of line 368. -/
def difficultyAndSubmit (env : Env) (play : PlayData) (firstHero : HeroPlay)
    (isWreckingCrew : Bool) : StM Bool := do
  let difficulty := parseDifficulty play.Difficulty
  let won := firstHero.Win = 1
  prim env (PageAction.answer "Did you win" (if won then "Yes" else "No"))
  if isWreckingCrew then do
    let wreckingCrewDifficulty :=
      if jsIncludes play.Difficulty "E" || lowerIncludes (lowerChars play.Difficulty) "expert"
      then "Expert (version-B Villains)"
      else "Standard (version-A Villains)"
    prim env (PageAction.clickRadio wreckingCrewDifficulty false)
    if difficulty.heroic ≠ "" then prim env (PageAction.clickRadio difficulty.heroic true)
    else pure ()
  else do
    prim env (PageAction.clickRadio difficulty.standard false)
    prim env (PageAction.clickRadio difficulty.expert false)
    if difficulty.heroic ≠ "" then prim env (PageAction.clickRadio difficulty.heroic true)
    else pure ()
  prim env PageAction.clickSubmit
  prim env PageAction.pageReady
  pure true

/-- The body of `submitPlay` inside its outer `try` (lines 126-373). -/
def submitPlayBody (env : Env) (play : PlayData) : StM Bool := do
  navigateWithRetry env
  match play.Heroes with
  | [] =>
    -- JavaScript: `play.Heroes[0]` is undefined and reading `.Hero`
    -- raises a TypeError inside the try block.
    throwErr "TypeError: cannot read properties of undefined"
  | firstHero :: _ => do
    let heroName := lookupName HERO_NAME_MAPPINGS firstHero.Hero
    selectRadio env heroName
    prim env PageAction.clickNext
    prim env PageAction.pageReady
    -- PAGE 2: aspect (skipped for Adam Warlock, dual for Spider-Woman)
    if heroName = "Adam Warlock" then pure ()
    else if heroName = "Spider-Woman" then
      prim env (PageAction.clickRadio (mapSpiderWomanAspects firstHero.Aspect) false)
    else
      prim env (PageAction.clickRadio firstHero.Aspect false)
    let hasMoreHeroes := decide (1 < play.Heroes.length) && !play.Multiplayer
    prim env (PageAction.answer "Was there a second Hero" (if hasMoreHeroes then "Yes" else "No"))
    prim env PageAction.clickNext
    prim env PageAction.pageReady
    if hasMoreHeroes then selectExtraHeroes env 1 (play.Heroes.drop 1) else pure ()
    -- scenario / villain
    selectRadio env (lookupName VILLAIN_NAME_MAPPINGS play.Villain)
    prim env PageAction.clickNext
    prim env PageAction.pageReady
    -- optional campaign page
    if env.campaignPage then do
      prim env (PageAction.answer "Were you playing in campaign mode" "No")
      prim env PageAction.clickNext
      prim env PageAction.pageReady
    else pure ()
    -- PAGE 4: modular encounter sets (skipped for Wrecking Crew)
    let isWreckingCrew := SCENARIOS_WITHOUT_MODULAR_PAGE.contains play.Villain
    if !isWreckingCrew then
      if !env.modularPage then
        -- page-mismatch check: `return false`
        pure false
      else do
        forEach (selectModularSet env) play.Modular_Sets
        prim env PageAction.clickNext
        prim env PageAction.pageReady
        difficultyAndSubmit env play firstHero isWreckingCrew
    else
      difficultyAndSubmit env play firstHero isWreckingCrew

/-- `submitPlay`: the `if (!this.page) throw` guard sits before the `try`
and escapes; every other error is caught by the outer catch and converted
to a `false` result (lines 374-377).  Returns the result together with
the performed actions. -/
def submitPlay (pageInitialized : Bool) (env : Env) (play : PlayData) :
    Except String Bool × List PageAction :=
  if pageInitialized then
    match tryCatchM (submitPlayBody env play) (fun _ => pure false) (0, []) with
    | (r, (_, tr)) => (r, tr)
  else
    (Except.error "Page not initialized", [])

/-- Modelled from the spec: the final-submission step of the Session
Navigator under the dry-run toggle, which is missing from the
`FormSubmitter` in the source ("click the final action unless the system
is configured for a non-submitting dry run, in which case this step is a
no-op that still logs as if submitted").  Number of Submit clicks the
step performs. -/
def specSubmitClickCount (dryRun : Bool) : Nat :=
  if dryRun then 0 else 1

/-! ## Concrete sample data -/

/-- The sample record of the repository README (a Klaw play). -/
def samplePlay : PlayData :=
  { Id := "100672696", Date := "2025-06-26", Villain := "Klaw", Difficulty := "S1E1",
    Multiplayer := false, True_Solo := true,
    Heroes := [{ Hero := "Winter Soldier", Aspect := "Aggression", Win := 0 }],
    Modular_Sets := ["Masters of Evil"] }

/-- A fault-free environment: nothing throws, every control is found. -/
def benignEnv : Env :=
  { throws := fun _ => false,
    radioExact := fun _ => true,
    checkboxExact := fun _ => true,
    checkboxLoose := fun _ => true,
    campaignPage := false,
    modularPage := true,
    heroQuestion := fun _ => true }

/-- Environment in which every page-interaction primitive throws. -/
def allThrowEnv : Env :=
  { benignEnv with throws := fun _ => true }

/-- Fault-free environment except that the modular-sets page marker
(checkboxes) is absent: the page-mismatch check fires. -/
def noModularPageEnv : Env :=
  { benignEnv with modularPage := false }

/-! ## Spec-side definitions used to state the claims -/

/-- Whether an `Except` result is a normal return (no escaped exception). -/
def isOkResult : Except String Bool → Bool
  | Except.ok _ => true
  | Except.error _ => false

/-- Spec wording of the standard-tier selection: "the standard tier is
chosen by the highest recognized standard marker present (defaulting to
the lowest tier)". -/
def specStandardTier (difficulty : String) : String :=
  if jsIncludes difficulty "S3" then "Standard III (Age of Apocalypse campaign box)"
  else if jsIncludes difficulty "S2" then "Standard II (The Hood scenario pack)"
  else "Standard (Core Set)"

/-- Spec wording of the expert-tier selection: "the expert tier by the
highest recognized expert marker present (defaulting to none)". -/
def specExpertTier (difficulty : String) : String :=
  if jsIncludes difficulty "E2" then "Expert II (The Hood scenario pack)"
  else if jsIncludes difficulty "E1" then "Expert (Core Set)"
  else "None"

/-- The five keyword-family flags of the dual-category resolver, in source
order: aggression, justice, leadership, protection, basic/pool. -/
def aspectFlags (aspect : String) : Bool × Bool × Bool × Bool × Bool :=
  let aspectLower := lowerChars aspect
  (lowerIncludes aspectLower "aggression",
   lowerIncludes aspectLower "justice",
   lowerIncludes aspectLower "leadership",
   lowerIncludes aspectLower "protection",
   lowerIncludes aspectLower "basic" || lowerIncludes aspectLower "pool")

/-- Whether the string contains at least one of the ten recognized
keyword pairs. -/
def hasRecognizedPair (aspect : String) : Bool :=
  let (a, j, l, p, b) := aspectFlags aspect
  (a && j) || (a && l) || (a && p) || (j && l) || (j && p) || (l && p) ||
  (a && b) || (j && b) || (l && b) || (p && b)

/-- Spec wording of filtering rule 1: no participant has the
"no selection" sentinel category. -/
def specNoSentinelCategory (play : PlayData) : Bool :=
  play.Heroes.all fun h => !(h.Aspect == "Basic")

/-- Spec wording of filtering rule 2: non-empty auxiliary-content list
unless the scenario is in the no-auxiliary-page exception set. -/
def specAuxContentOk (play : PlayData) : Bool :=
  SCENARIOS_WITHOUT_MODULAR_PAGE.contains play.Villain || !play.Modular_Sets.isEmpty

/-- Spec wording of filtering rule 3: when a start date is supplied, the
record date is not before it. -/
def specDateOk (startDate : Option String) (play : PlayData) : Bool :=
  match startDate with
  | none => true
  | some d => !(dateVal play.Date < dateVal d)

/-- A record survives `filterPlays` iff all three rules hold. -/
def specKeepsPlay (startDate : Option String) (play : PlayData) : Bool :=
  specNoSentinelCategory play && specAuxContentOk play && specDateOk startDate play

/-- Number of successful `submitPlay` attempts recorded in a trace. -/
def countOkAttempts (trace : List ChunkEv) : Nat :=
  trace.countP fun e =>
    match e with
    | ChunkEv.attempt _ true => true
    | _ => false

/-- Number of failed `submitPlay` attempts recorded in a trace. -/
def countFailAttempts (trace : List ChunkEv) : Nat :=
  trace.countP fun e =>
    match e with
    | ChunkEv.attempt _ false => true
    | _ => false

/-- Structural well-formedness of a chunk-processing trace, checked
against the running consecutive-failure counter `cf`:
- a record is only ever attempted while the counter is below the
  threshold 3 (so a reacquisition always separates a third consecutive
  failure from the next attempt);
- the counter resets to 0 after a success and increments after a failure;
- a reacquisition event happens exactly when the counter is 3, and the
  counter is 0 immediately after a successful one, whatever happens next;
- a successful reacquisition is immediately followed by the next record's
  attempt (exactly one reacquisition, no back-to-back reacquisitions);
- a failed reacquisition is the last event of the trace (the session
  stops). -/
def traceOk : List ChunkEv → Nat → Bool
  | [], _ => true
  | ChunkEv.attempt _ true :: rest, cf => decide (cf < 3) && traceOk rest 0
  | ChunkEv.attempt _ false :: rest, cf => decide (cf < 3) && traceOk rest (cf + 1)
  | ChunkEv.reacquire true :: rest, cf =>
    decide (cf = 3) &&
    (match rest with
     | ChunkEv.attempt _ _ :: _ => true
     | _ => false) &&
    traceOk rest 0
  | ChunkEv.reacquire false :: rest, cf => decide (cf = 3) && rest.isEmpty

/-- A record that `submitPlay` always fails on (oracle by id below). -/
def failingPlay (id : String) : PlayData :=
  { Id := id, Date := "2025-01-01", Villain := "Klaw", Difficulty := "S1",
    Multiplayer := false, True_Solo := true,
    Heroes := [{ Hero := "Captain America", Aspect := "Leadership", Win := 0 }],
    Modular_Sets := ["Under Attack"] }

/-- Three records that fail followed by one that succeeds, under
`succeedsOnlyFourth`. -/
def threeFailThenOk : List PlayData :=
  [failingPlay "1", failingPlay "2", failingPlay "3", failingPlay "4"]

/-- Outcome oracle: only the record with id "4" succeeds. -/
def succeedsOnlyFourth (play : PlayData) : Bool :=
  play.Id == "4"

/-! # Theorems -/

/-! ## Helper lemmas -/

theorem join_map_singleton (l : List α) : (l.map fun a => [a]).flatten = l := by
  induction l with
  | nil => rfl
  | cons a t ih => simp [ih]

theorem sliceChunks_flatten (l : List α) (s : Nat) (hs : 0 < s) :
    (sliceChunks l s).flatten = l := by
  rw [sliceChunks]
  rw [dif_neg (by omega : ¬ s = 0)]
  by_cases hl : l.isEmpty
  · rw [dif_pos hl]
    simp [List.isEmpty_iff] at hl
    simp [hl]
  · rw [dif_neg hl]
    rw [List.flatten_cons]
    rw [sliceChunks_flatten (l.drop s) s hs]
    exact List.take_append_drop s l
termination_by l.length
decreasing_by
  simp only [List.length_drop]
  have h1 : l ≠ [] := by simpa [List.isEmpty_iff] using hl
  have h2 : 0 < l.length := List.length_pos.mpr h1
  omega

theorem sliceChunks_length (l : List α) (s : Nat) (hs : 0 < s) :
    (sliceChunks l s).length = (l.length + s - 1) / s := by
  rw [sliceChunks]
  rw [dif_neg (by omega : ¬ s = 0)]
  by_cases hl : l.isEmpty
  · rw [dif_pos hl]
    simp [List.isEmpty_iff] at hl
    subst hl
    simp [Nat.div_eq_of_lt (by omega : s - 1 < s)]
  · rw [dif_neg hl]
    have h1 : l ≠ [] := by simpa [List.isEmpty_iff] using hl
    have h2 : 0 < l.length := List.length_pos.mpr h1
    rw [List.length_cons]
    rw [sliceChunks_length (l.drop s) s hs]
    simp only [List.length_drop]
    by_cases hls : l.length ≤ s
    · have e1 : l.length - s = 0 := by omega
      rw [e1]
      have e2 : (0 + s - 1) / s = 0 := Nat.div_eq_of_lt (by omega)
      have e3 : (l.length + s - 1) / s = 1 :=
        Nat.div_eq_of_lt_le (by omega) (by omega)
      omega
    · have e4 : (l.length - 1) / s = (l.length - 1 - s) / s + 1 := by
        conv_lhs => rw [show l.length - 1 = (l.length - 1 - s) + s by omega]
        rw [Nat.add_div_right _ hs]
      have e1 : l.length - s + s - 1 = (l.length - 1 - s) + s := by omega
      have e2 : l.length + s - 1 = (l.length - 1) + s := by omega
      rw [e1, e2, Nat.add_div_right _ hs, Nat.add_div_right _ hs]
      omega
termination_by l.length
decreasing_by
  simp only [List.length_drop]
  have h1 : l ≠ [] := by simpa [List.isEmpty_iff] using hl
  have h2 : 0 < l.length := List.length_pos.mpr h1
  omega

theorem sliceChunks_mem (l : List α) (s : Nat) (hs : 0 < s) (c : List α)
    (hc : c ∈ sliceChunks l s) : c ≠ [] ∧ c.length ≤ s := by
  rw [sliceChunks] at hc
  rw [dif_neg (by omega : ¬ s = 0)] at hc
  by_cases hl : l.isEmpty
  · rw [dif_pos hl] at hc
    simp at hc
  · rw [dif_neg hl] at hc
    have h1 : l ≠ [] := by simpa [List.isEmpty_iff] using hl
    have h2 : 0 < l.length := List.length_pos.mpr h1
    rcases List.mem_cons.mp hc with h | h
    · subst h
      constructor
      · have : (l.take s).length = min s l.length := List.length_take s l
        intro he
        rw [he] at this
        simp at this
        omega
      · simpa using Nat.min_le_left s l.length
    · exact sliceChunks_mem (l.drop s) s hs c h
termination_by l.length
decreasing_by
  simp only [List.length_drop]
  omega

theorem sliceChunks_dropLast (l : List α) (s : Nat) (hs : 0 < s) (c : List α)
    (hc : c ∈ (sliceChunks l s).dropLast) : c.length = s := by
  rw [sliceChunks] at hc
  rw [dif_neg (by omega : ¬ s = 0)] at hc
  by_cases hl : l.isEmpty
  · rw [dif_pos hl] at hc
    simp at hc
  · rw [dif_neg hl] at hc
    have h1 : l ≠ [] := by simpa [List.isEmpty_iff] using hl
    have h2 : 0 < l.length := List.length_pos.mpr h1
    rcases hr : sliceChunks (l.drop s) s with _ | ⟨c2, cs⟩
    · rw [hr] at hc
      simp at hc
    · rw [hr] at hc
      rw [List.dropLast_cons₂] at hc
      rcases List.mem_cons.mp hc with h | h
      · subst h
        -- the tail produced at least one further chunk, so `l.drop s` is
        -- non-empty and the head chunk is a full slice of length `s`
        have hne : l.drop s ≠ [] := by
          intro he
          rw [sliceChunks, he] at hr
          simp at hr
        have hlen : s < l.length := by
          have := List.length_pos.mpr hne
          simp only [List.length_drop] at this
          omega
        simp [List.length_take]
        omega
      · have := sliceChunks_dropLast (l.drop s) s hs c
        rw [hr] at this
        exact this h
termination_by l.length
decreasing_by
  simp only [List.length_drop]
  omega

theorem le_mul_ceilDiv (n k : Nat) (hk : 0 < k) : n ≤ k * ((n + k - 1) / k) := by
  have h1 := Nat.div_add_mod (n + k - 1) k
  have h2 : (n + k - 1) % k < k := Nat.mod_lt _ hk
  omega

theorem ceilDiv_ceilDiv_le (n k : Nat) (hk : 0 < k) (hn : 0 < n) :
    (n + (n + k - 1) / k - 1) / ((n + k - 1) / k) ≤ k := by
  set s := (n + k - 1) / k with hs
  have hspos : 0 < s := by
    rw [hs]
    have h3 : 1 * k ≤ n + k - 1 := by omega
    have h4 := (Nat.le_div_iff_mul_le hk).mpr h3
    omega
  have hks : n ≤ k * s := le_mul_ceilDiv n k hk
  have : (n + s - 1) / s < k + 1 := by
    rw [Nat.div_lt_iff_lt_mul hspos]
    calc n + s - 1 < k * s + s := by omega
    _ = (k + 1) * s := by ring
  omega

/-! ## Claim C1 -/

/-- Claim C1 as stated is false: with 7 records and 3 requested workers,
`chunkArray` called with `min 3 7 = 3` produces chunk sizes `[3, 3, 1]`,
whose spread is 2 > 1 (the remainder is not spread over leading chunks);
and with 6 records and 4 requested workers it produces only 3 chunks, not
`min 4 6 = 4`. -/
theorem chunkArray_claimed_invariant_fails :
    (chunkArray ([0, 1, 2, 3, 4, 5, 6] : List Nat) (min 3 7)).map (fun cs => cs.map List.length)
        = some [3, 3, 1] ∧
    ¬ (3 - 1 ≤ 1) ∧
    (chunkArray ([0, 1, 2, 3, 4, 5] : List Nat) (min 4 6)).map List.length = some 3 ∧
    min 4 6 = 4 := by
  refine ⟨?_, by omega, ?_, by decide⟩
  · simp [chunkArray, sliceChunks]
  · simp [chunkArray, sliceChunks]

/-- Claim C1, amended to what `chunkArray` actually guarantees: for a
non-empty record list of size `n` and requested worker count `w ≥ 1`,
with `k = min w n` and ceiling chunk size `s = ⌈n / k⌉`, it returns
`⌈n / s⌉` chunks (between 1 and `k`, possibly fewer than `k`); their
concatenation is exactly the input in order; every chunk is non-empty of
size at most `s`, every chunk but the last of size exactly `s` (any
shortfall is in the single trailing chunk, not spread over leading
chunks); and when `w ≥ n` each record is its own singleton chunk. -/
theorem chunkArray_partition (l : List α) (w : Nat) (hl : l ≠ []) (hw : 1 ≤ w) :
    ∃ cs, chunkArray l (min w l.length) = some cs ∧
      cs.flatten = l ∧
      1 ≤ cs.length ∧
      cs.length ≤ min w l.length ∧
      cs.length = (l.length + (l.length + min w l.length - 1) / min w l.length - 1) /
        ((l.length + min w l.length - 1) / min w l.length) ∧
      (∀ c ∈ cs, c ≠ [] ∧ c.length ≤ (l.length + min w l.length - 1) / min w l.length) ∧
      (∀ c ∈ cs.dropLast, c.length = (l.length + min w l.length - 1) / min w l.length) ∧
      (l.length ≤ w → cs = l.map fun a => [a]) := by
  have hn : 1 ≤ l.length := List.length_pos.mpr hl
  set n := l.length with hnd
  set k := min w n with hkd
  have hk : 1 ≤ k := le_min hw hn
  have hkn : k ≤ n := min_le_right w n
  rw [chunkArray]
  rw [if_neg (by omega : ¬ k = 0)]
  by_cases hcase : n ≤ k
  · -- k = n : the workers >= records branch, one singleton chunk per record
    have hkeq : k = n := by omega
    have hs1 : (n + k - 1) / k = 1 := by
      rw [hkeq]
      exact Nat.div_eq_of_lt_le (by omega) (by omega)
    rw [if_pos hcase]
    refine ⟨l.map fun a => [a], rfl, join_map_singleton l, ?_, ?_, ?_, ?_, ?_, fun _ => rfl⟩
    · simp
      omega
    · simp
      omega
    · rw [hs1]
      simp
    · intro c hc
      rcases List.mem_map.mp hc with ⟨a, _, ha⟩
      subst ha
      rw [hs1]
      exact ⟨by simp, by simp⟩
    · intro c hc
      have hc2 := (List.dropLast_sublist _).subset hc
      rcases List.mem_map.mp hc2 with ⟨a, _, ha⟩
      subst ha
      rw [hs1]
      simp
  · -- k < n : the slicing branch
    push_neg at hcase
    rw [if_neg (by omega : ¬ n ≤ k)]
    set s := (n + k - 1) / k with hsd
    have hspos : 0 < s := by
      rw [hsd]
      have h3 : 1 * k ≤ n + k - 1 := by omega
      have h4 := (Nat.le_div_iff_mul_le (by omega : 0 < k)).mpr h3
      omega
    refine ⟨sliceChunks l s, rfl, sliceChunks_flatten l s hspos, ?_, ?_, ?_, ?_, ?_, ?_⟩
    · rw [sliceChunks_length l s hspos, ← hnd]
      have h3 : 1 * s ≤ n + s - 1 := by omega
      have h4 := (Nat.le_div_iff_mul_le hspos).mpr h3
      omega
    · rw [sliceChunks_length l s hspos, ← hnd]
      have h5 := ceilDiv_ceilDiv_le n k (by omega) (by omega)
      rw [← hsd] at h5
      exact h5
    · rw [sliceChunks_length l s hspos, ← hnd]
    · exact sliceChunks_mem l s hspos
    · exact sliceChunks_dropLast l s hspos
    · intro hnw
      have hkn2 : k = n := by omega
      omega

/-- Witness for `chunkArray_partition` at the concrete input
`l = [0, ..., 6]`, `w = 3`. -/
theorem chunkArray_partition_witness :
    (([0, 1, 2, 3, 4, 5, 6] : List Nat) ≠ [] ∧ 1 ≤ 3) ∧
    (∃ cs, chunkArray ([0, 1, 2, 3, 4, 5, 6] : List Nat) (min 3 7) = some cs ∧
      cs.flatten = [0, 1, 2, 3, 4, 5, 6] ∧
      1 ≤ cs.length ∧
      cs.length ≤ min 3 7 ∧
      cs.length = (7 + (7 + min 3 7 - 1) / min 3 7 - 1) / ((7 + min 3 7 - 1) / min 3 7) ∧
      (∀ c ∈ cs, c ≠ [] ∧ c.length ≤ (7 + min 3 7 - 1) / min 3 7) ∧
      (∀ c ∈ cs.dropLast, c.length = (7 + min 3 7 - 1) / min 3 7) ∧
      (7 ≤ 3 → cs = [0, 1, 2, 3, 4, 5, 6].map fun a => [a])) :=
  ⟨⟨by decide, by decide⟩, chunkArray_partition [0, 1, 2, 3, 4, 5, 6] 3 (by decide) (by decide)⟩

/-! ## Claim C10 -/

/-- Claim C10: `chunkArray` fails (throws, modelled as `none`) exactly
when the requested chunk count is not positive, and returns normally on
every list for any chunk count of at least 1; and the chunking step of
`processPlaysInParallel` never reaches that error branch, because it
returns early when there are no plays and otherwise calls `chunkArray`
with `min maxWorkers n ≥ 1`. -/
theorem chunkArray_total_and_orchestrator_safe :
    (∀ (l : List PlayData) (numChunks : Nat),
      (chunkArray l numChunks = none ↔ numChunks = 0)) ∧
    (∀ (plays : List PlayData) (maxWorkers : Nat),
      parallelChunking plays maxWorkers ≠ ParallelChunks.chunkArrayError) := by
  have hbase : ∀ (l : List PlayData) (numChunks : Nat),
      (chunkArray l numChunks = none ↔ numChunks = 0) := by
    intro l numChunks
    constructor
    · intro h
      by_contra hnz
      rw [chunkArray, if_neg hnz] at h
      by_cases hle : l.length ≤ numChunks
      · rw [if_pos hle] at h
        exact Option.noConfusion h
      · rw [if_neg hle] at h
        exact Option.noConfusion h
    · intro h
      rw [chunkArray, if_pos h]
  refine ⟨hbase, ?_⟩
  intro plays maxWorkers
  rw [parallelChunking]
  by_cases hz : min maxWorkers plays.length = 0
  · rw [if_pos hz]
    intro h
    exact ParallelChunks.noConfusion h
  · rw [if_neg hz]
    rcases hres : chunkArray plays (min maxWorkers plays.length) with _ | cs
    · exact absurd ((hbase plays _).mp hres) hz
    · intro h
      exact ParallelChunks.noConfusion h

/-! ## Claim C6 -/

/-- Claim C6: the stated difficulty-decoding vectors hold ("S1E1" gives
Core/Core, "S2E2" gives Hood-II/Hood-II, "S3" gives Apocalypse-III with
expert None, and the literal "Heroic" gives heroic tier "1" with standard
and expert left at their defaults), and for every other code the standard
tier is the highest recognized standard marker present (defaulting to the
lowest tier) and the expert tier the highest recognized expert marker
present (defaulting to "None"), independently of one another. -/
theorem parseDifficulty_decoding :
    parseDifficulty "S1E1" =
      { standard := "Standard (Core Set)", expert := "Expert (Core Set)",
        heroic := "", skirmish := "" } ∧
    parseDifficulty "S2E2" =
      { standard := "Standard II (The Hood scenario pack)",
        expert := "Expert II (The Hood scenario pack)", heroic := "", skirmish := "" } ∧
    parseDifficulty "S3" =
      { standard := "Standard III (Age of Apocalypse campaign box)", expert := "None",
        heroic := "", skirmish := "" } ∧
    parseDifficulty "Heroic" =
      { standard := "Standard (Core Set)", expert := "None", heroic := "1", skirmish := "" } ∧
    ∀ difficulty, difficulty ≠ "Heroic" →
      parseDifficulty difficulty =
        { standard := specStandardTier difficulty, expert := specExpertTier difficulty,
          heroic := "", skirmish := "" } := by
  refine ⟨by decide, by decide, by decide, by decide, ?_⟩
  intro difficulty hd
  rw [parseDifficulty, if_neg hd, specStandardTier, specExpertTier]

/-- Witness for the general decoding rule of `parseDifficulty_decoding`
at the concrete code "S2". -/
theorem parseDifficulty_decoding_witness :
    ("S2" : String) ≠ "Heroic" ∧
    parseDifficulty "S2" =
      { standard := specStandardTier "S2", expert := specExpertTier "S2",
        heroic := "", skirmish := "" } :=
  ⟨by decide, parseDifficulty_decoding.2.2.2.2 "S2" (by decide)⟩

/-! ## Claim C7 -/

/-- Evaluation of the dual-category resolver from the five keyword-family
flags of the input string. -/
theorem mapSpiderWomanAspects_eval (aspect : String) (t : Bool × Bool × Bool × Bool × Bool)
    (h : aspectFlags aspect = t) :
    mapSpiderWomanAspects aspect =
      (if t.1 && t.2.1 then "Aggression and Justice"
       else if t.1 && t.2.2.1 then "Aggression and Leadership"
       else if t.1 && t.2.2.2.1 then "Aggression and Protection"
       else if t.2.1 && t.2.2.1 then "Justice and Leadership"
       else if t.2.1 && t.2.2.2.1 then "Justice and Protection"
       else if t.2.2.1 && t.2.2.2.1 then "Leadership and Protection"
       else if t.1 && t.2.2.2.2 then "Aggression and Pool"
       else if t.2.1 && t.2.2.2.2 then "Justice and Pool"
       else if t.2.2.1 && t.2.2.2.2 then "Leadership and Pool"
       else if t.2.2.2.1 && t.2.2.2.2 then "Pool and Protection"
       else aspect) := by
  rcases t with ⟨a, j, l, p, b⟩
  simp only [aspectFlags, Prod.mk.injEq] at h
  obtain ⟨h1, h2, h3, h4, h5⟩ := h
  simp only [mapSpiderWomanAspects, h1, h2, h3, h4, h5]

set_option maxHeartbeats 1000000 in
/-- A string without any recognized keyword pair is returned unchanged. -/
theorem mapSpiderWomanAspects_noPair (aspect : String)
    (h : hasRecognizedPair aspect = false) :
    mapSpiderWomanAspects aspect = aspect := by
  cases ha : lowerIncludes (lowerChars aspect) "aggression" <;>
  cases hj : lowerIncludes (lowerChars aspect) "justice" <;>
  cases hl2 : lowerIncludes (lowerChars aspect) "leadership" <;>
  cases hp : lowerIncludes (lowerChars aspect) "protection" <;>
  cases hb : lowerIncludes (lowerChars aspect) "basic" <;>
  cases hq : lowerIncludes (lowerChars aspect) "pool" <;>
    simp_all [mapSpiderWomanAspects, hasRecognizedPair, aspectFlags]

/-- Claim C7: any string containing both "aggression" and "justice"
keywords (any letter case, in any order, possibly with other text)
resolves to exactly "Aggression and Justice"; a string containing no
recognized keyword pair is returned unchanged; and a string containing
exactly one pair of recognized keyword families resolves to that pair's
canonical alphabetically-ordered two-part label, for each of the ten
recognized pairs. -/
theorem mapSpiderWomanAspects_resolution :
    (∀ aspect, (aspectFlags aspect).1 = true → (aspectFlags aspect).2.1 = true →
      mapSpiderWomanAspects aspect = "Aggression and Justice") ∧
    (∀ aspect, hasRecognizedPair aspect = false →
      mapSpiderWomanAspects aspect = aspect) ∧
    (∀ aspect, aspectFlags aspect = (true, true, false, false, false) →
      mapSpiderWomanAspects aspect = "Aggression and Justice") ∧
    (∀ aspect, aspectFlags aspect = (true, false, true, false, false) →
      mapSpiderWomanAspects aspect = "Aggression and Leadership") ∧
    (∀ aspect, aspectFlags aspect = (true, false, false, true, false) →
      mapSpiderWomanAspects aspect = "Aggression and Protection") ∧
    (∀ aspect, aspectFlags aspect = (false, true, true, false, false) →
      mapSpiderWomanAspects aspect = "Justice and Leadership") ∧
    (∀ aspect, aspectFlags aspect = (false, true, false, true, false) →
      mapSpiderWomanAspects aspect = "Justice and Protection") ∧
    (∀ aspect, aspectFlags aspect = (false, false, true, true, false) →
      mapSpiderWomanAspects aspect = "Leadership and Protection") ∧
    (∀ aspect, aspectFlags aspect = (true, false, false, false, true) →
      mapSpiderWomanAspects aspect = "Aggression and Pool") ∧
    (∀ aspect, aspectFlags aspect = (false, true, false, false, true) →
      mapSpiderWomanAspects aspect = "Justice and Pool") ∧
    (∀ aspect, aspectFlags aspect = (false, false, true, false, true) →
      mapSpiderWomanAspects aspect = "Leadership and Pool") ∧
    (∀ aspect, aspectFlags aspect = (false, false, false, true, true) →
      mapSpiderWomanAspects aspect = "Pool and Protection") := by
  refine ⟨?_, mapSpiderWomanAspects_noPair, ?_, ?_, ?_, ?_, ?_, ?_, ?_, ?_, ?_, ?_⟩
  · intro aspect h1 h2
    simp only [aspectFlags] at h1 h2
    simp [mapSpiderWomanAspects, h1, h2]
  all_goals intro aspect h
  all_goals rw [mapSpiderWomanAspects_eval aspect _ h]
  all_goals rfl

/-- Witness for `mapSpiderWomanAspects_resolution` at the concrete
inputs "Justice & aggression" (both keywords, mixed case, reversed
order), "Peter Parker" (no recognized pair) and "leadership/protection"
(exactly the leadership+protection pair). -/
theorem mapSpiderWomanAspects_resolution_witness :
    ((aspectFlags "Justice & aggression").1 = true ∧
     (aspectFlags "Justice & aggression").2.1 = true ∧
     mapSpiderWomanAspects "Justice & aggression" = "Aggression and Justice") ∧
    (hasRecognizedPair "Peter Parker" = false ∧
     mapSpiderWomanAspects "Peter Parker" = "Peter Parker") ∧
    (aspectFlags "leadership/protection" = (false, false, true, true, false) ∧
     mapSpiderWomanAspects "leadership/protection" = "Leadership and Protection") :=
  ⟨⟨by decide, by decide,
    mapSpiderWomanAspects_resolution.1 "Justice & aggression" (by decide) (by decide)⟩,
   ⟨by decide, mapSpiderWomanAspects_resolution.2.1 "Peter Parker" (by decide)⟩,
   ⟨by decide,
    mapSpiderWomanAspects_resolution.2.2.2.2.2.2.2.1 "leadership/protection" (by decide)⟩⟩

/-! ## Claims C8 and C9 : filterPlays -/

theorem filterCount_eq (p : α → Bool) (l : List α) :
    filterCount p l = (l.filter p, (l.filter fun x => !p x).length) := by
  induction l with
  | nil => rfl
  | cons x xs ih =>
    rw [filterCount, ih]
    cases hx : p x <;> simp [List.filter_cons, hx]

theorem filter_length_split (p : α → Bool) (l : List α) :
    l.length = (l.filter p).length + (l.filter fun x => !p x).length := by
  induction l with
  | nil => rfl
  | cons x xs ih =>
    cases hx : p x <;> simp [List.filter_cons, hx] <;> omega

theorem specNoSentinel_eq_not_hasBasic (play : PlayData) :
    specNoSentinelCategory play = !hasBasicAspect play := by
  rw [specNoSentinelCategory, hasBasicAspect]
  induction play.Heroes with
  | nil => rfl
  | cons h t ih => cases hh : h.Aspect == "Basic" <;> simp_all

/-- The survivors of `filterPlays` before sorting: the three filters in
source order, as one filter. -/
theorem filterPlays_playsToProcess (allPlays : List PlayData) (startDate : Option String) :
    (filterPlays allPlays startDate).playsToProcess =
      (allPlays.filter (specKeepsPlay startDate)).mergeSort dateLe := by
  rw [filterPlays]
  simp only [filterCount_eq]
  rcases startDate with _ | d
  · simp only [List.filter_filter]
    congr 1
    apply List.filter_congr
    intro x _
    rw [specKeepsPlay, specNoSentinel_eq_not_hasBasic, specDateOk]
    rw [keepModular, specAuxContentOk]
    cases hasBasicAspect x <;> simp
  · simp only [List.filter_filter]
    congr 1
    apply List.filter_congr
    intro x _
    rw [specKeepsPlay, specNoSentinel_eq_not_hasBasic, specDateOk, keepDate]
    rw [keepModular, specAuxContentOk]
    cases hasBasicAspect x <;> cases hm : SCENARIOS_WITHOUT_MODULAR_PAGE.contains x.Villain ||
      !x.Modular_Sets.isEmpty <;> simp [hm]

theorem dateLe_trans : ∀ a b c, dateLe a b → dateLe b c → dateLe a c := by
  intro a b c
  simp only [dateLe, decide_eq_true_eq]
  omega

theorem dateLe_total : ∀ a b, dateLe a b || dateLe b a := by
  intro a b
  simp only [dateLe]
  by_cases h : dateVal a.Date ≤ dateVal b.Date
  · simp [h]
  · simp
    omega

/-- Claim C8: `filterPlays` keeps exactly the records with no "Basic"
(no-selection) participant category, a non-empty modular-set list unless
the scenario is in the fixed no-modular-page exception set, and (when a
start date is supplied) a date not before it; and the reported counters
are accurate: the total equals the input length and equals the number
kept plus the three rejection counters, each counter counting the records
its rule rejected (among those the earlier rules let through). -/
theorem filterPlays_correct (allPlays : List PlayData) (startDate : Option String) :
    (filterPlays allPlays startDate).stats.total = allPlays.length ∧
    List.Perm (filterPlays allPlays startDate).playsToProcess
      (allPlays.filter (specKeepsPlay startDate)) ∧
    (filterPlays allPlays startDate).stats.skippedBasicAspect =
      (allPlays.filter fun p => !specNoSentinelCategory p).length ∧
    (filterPlays allPlays startDate).stats.skippedEmptyModular =
      (allPlays.filter fun p => specNoSentinelCategory p && !specAuxContentOk p).length ∧
    (filterPlays allPlays startDate).stats.skippedBeforeDate =
      (allPlays.filter fun p => specNoSentinelCategory p && specAuxContentOk p &&
        !specDateOk startDate p).length ∧
    (filterPlays allPlays startDate).stats.total =
      (filterPlays allPlays startDate).playsToProcess.length +
      (filterPlays allPlays startDate).stats.skippedBasicAspect +
      (filterPlays allPlays startDate).stats.skippedEmptyModular +
      (filterPlays allPlays startDate).stats.skippedBeforeDate := by
  refine ⟨?_, ?_, ?_, ?_, ?_, ?_⟩
  · rcases startDate with _ | d <;> simp [filterPlays, filterCount_eq]
  · rw [filterPlays_playsToProcess]
    exact List.mergeSort_perm _ _
  · rcases startDate with _ | d
    all_goals simp only [filterPlays, filterCount_eq]
    all_goals apply congrArg
    all_goals apply List.filter_congr
    all_goals intro x _
    all_goals rw [specNoSentinel_eq_not_hasBasic]
    all_goals cases hasBasicAspect x
    all_goals rfl
  · rcases startDate with _ | d
    all_goals simp only [filterPlays, filterCount_eq, List.filter_filter]
    all_goals apply congrArg
    all_goals apply List.filter_congr
    all_goals intro x _
    all_goals rw [specNoSentinel_eq_not_hasBasic, specAuxContentOk, keepModular]
    all_goals cases hasBasicAspect x
    all_goals cases SCENARIOS_WITHOUT_MODULAR_PAGE.contains x.Villain || !x.Modular_Sets.isEmpty
    all_goals rfl
  · rcases startDate with _ | d
    · simp [filterPlays, filterCount_eq, specDateOk]
    · simp only [filterPlays, filterCount_eq, List.filter_filter]
      apply congrArg
      apply List.filter_congr
      intro x _
      rw [specNoSentinel_eq_not_hasBasic, specAuxContentOk, keepModular, specDateOk, keepDate]
      cases hasBasicAspect x
      all_goals cases SCENARIOS_WITHOUT_MODULAR_PAGE.contains x.Villain || !x.Modular_Sets.isEmpty
      all_goals cases decide (dateVal x.Date < dateVal d)
      all_goals rfl
  · rcases startDate with _ | d
    · simp only [filterPlays, filterCount_eq, List.filter_filter, List.length_mergeSort]
      have h1 := filter_length_split (fun p => !hasBasicAspect p) allPlays
      have h2 := filter_length_split keepModular
        (allPlays.filter (fun p => !hasBasicAspect p))
      simp only [List.filter_filter] at h2
      omega
    · simp only [filterPlays, filterCount_eq, List.filter_filter, List.length_mergeSort]
      have h1 := filter_length_split (fun p => !hasBasicAspect p) allPlays
      have h2 := filter_length_split keepModular
        (allPlays.filter (fun p => !hasBasicAspect p))
      have h3 := filter_length_split (keepDate d)
        ((allPlays.filter (fun p => !hasBasicAspect p)).filter keepModular)
      simp only [List.filter_filter] at h2 h3
      omega

/-- Claim C9: `filterPlays` is idempotent — filtering its own surviving
record list again with the same start date returns the same record list,
with the same membership and order. -/
theorem filterPlays_idempotent (allPlays : List PlayData) (startDate : Option String) :
    (filterPlays (filterPlays allPlays startDate).playsToProcess startDate).playsToProcess =
      (filterPlays allPlays startDate).playsToProcess := by
  rw [filterPlays_playsToProcess, filterPlays_playsToProcess]
  have hself : ((allPlays.filter (specKeepsPlay startDate)).mergeSort dateLe).filter
      (specKeepsPlay startDate) =
      (allPlays.filter (specKeepsPlay startDate)).mergeSort dateLe := by
    apply List.filter_eq_self.mpr
    intro a ha
    exact List.of_mem_filter (List.mem_mergeSort.mp ha)
  rw [hself]
  exact List.mergeSort_of_sorted
    (List.sorted_mergeSort dateLe_trans dateLe_total _)
theorem processPlaysChunk_traceOk (o : PlayData → Bool) (racq : Nat → Bool) :
    ∀ (ps : List PlayData) (r s f cf : Nat), cf ≤ 3 →
      traceOk (processPlaysChunk o racq ps r s f cf).trace cf = true := by
  intro ps
  induction ps with
  | nil => intro r s f cf _; rfl
  | cons p tl ih =>
    intro r s f cf hcf
    by_cases h3 : 3 ≤ cf
    · have hcf3 : cf = 3 := by omega
      subst hcf3
      by_cases hr : racq r
      · by_cases ho : o p
        · simp [processPlaysChunk, chunkRecoveryStep, hr, ho, traceOk]
          exact ih (r + 1) (s + 1) f 0 (by omega)
        · simp [processPlaysChunk, chunkRecoveryStep, hr, ho, traceOk]
          exact ih (r + 1) s (f + 1) 1 (by omega)
      · simp [processPlaysChunk, chunkRecoveryStep, hr, traceOk]
    · have hlt : cf < 3 := by omega
      by_cases ho : o p
      · simp [processPlaysChunk, chunkRecoveryStep, h3, ho, traceOk, hlt]
        exact ih r (s + 1) f 0 (by omega)
      · simp [processPlaysChunk, chunkRecoveryStep, h3, ho, traceOk, hlt]
        exact ih r s (f + 1) (cf + 1) (by omega)

theorem processPlaysChunk_counts (o : PlayData → Bool) (racq : Nat → Bool) :
    ∀ (ps : List PlayData) (r s f cf : Nat),
      (processPlaysChunk o racq ps r s f cf).success =
        s + countOkAttempts (processPlaysChunk o racq ps r s f cf).trace ∧
      (processPlaysChunk o racq ps r s f cf).failed =
        f + countFailAttempts (processPlaysChunk o racq ps r s f cf).trace := by
  intro ps
  induction ps with
  | nil => intro r s f cf; exact ⟨rfl, rfl⟩
  | cons p tl ih =>
    intro r s f cf
    by_cases h3 : 3 ≤ cf
    · by_cases hr : racq r
      · by_cases ho : o p
        · have := ih (r + 1) (s + 1) f 0
          simp [processPlaysChunk, chunkRecoveryStep, h3, hr, ho, countOkAttempts,
            countFailAttempts, List.countP_cons] at this ⊢
          omega
        · have := ih (r + 1) s (f + 1) 1
          simp [processPlaysChunk, chunkRecoveryStep, h3, hr, ho, countOkAttempts,
            countFailAttempts, List.countP_cons] at this ⊢
          omega
      · simp [processPlaysChunk, chunkRecoveryStep, h3, hr, countOkAttempts,
          countFailAttempts]
    · by_cases ho : o p
      · have := ih r (s + 1) f 0
        simp [processPlaysChunk, chunkRecoveryStep, h3, ho, countOkAttempts,
          countFailAttempts, List.countP_cons] at this ⊢
        omega
      · have := ih r s (f + 1) (cf + 1)
        simp [processPlaysChunk, chunkRecoveryStep, h3, ho, countOkAttempts,
          countFailAttempts, List.countP_cons] at this ⊢
        omega

/-! ## Claim C5 -/

/-- Claim C5: in every run of the `processPlaysChunk` loop, for every
outcome and reacquisition oracle, the emitted event trace is well formed
in the sense of `traceOk` from counter 0 — a record is only attempted
below the failure threshold 3; a page reacquisition happens exactly when
the counter reaches 3, i.e. exactly after a third consecutive failed
attempt; a successful reacquisition resets the counter to 0 immediately
(the rest of the trace is checked from 0, whatever the next attempt's
result is) and is immediately followed by the next record's attempt
(exactly one reacquisition, never two in a row); a failed reacquisition
ends the trace (the session stops) — and the reported counters always
equal the number of successful and failed attempts recorded in the trace,
so outcomes already recorded are kept even when the session stops. -/
theorem processPlaysChunk_recovery_protocol
    (outcome : PlayData → Bool) (reacquire : Nat → Bool) (plays : List PlayData) :
    traceOk (chunkRun outcome reacquire plays).trace 0 = true ∧
    (chunkRun outcome reacquire plays).success =
      countOkAttempts (chunkRun outcome reacquire plays).trace ∧
    (chunkRun outcome reacquire plays).failed =
      countFailAttempts (chunkRun outcome reacquire plays).trace := by
  have h1 := processPlaysChunk_traceOk outcome reacquire plays 0 0 0 0 (by omega)
  have h2 := processPlaysChunk_counts outcome reacquire plays 0 0 0 0
  rw [chunkRun]
  refine ⟨h1, ?_, ?_⟩
  · simpa using h2.1
  · simpa using h2.2

/-! ## Claim C3 -/

/-- Claim C3 fails on the code: the sequential loop of
`processPlaysSequentially` does not share the recovery logic of
`processPlaysChunk`.  On three failing records followed by one that would
succeed, with page reacquisition succeeding, the chunk loop recovers and
finishes with 1 success and 3 failures, while the sequential loop stops
at the threshold with 0 successes and 3 failures, and performs no
reacquisition at all. -/
theorem sequential_differs_from_chunk_on_recovery :
    (sequentialRun succeedsOnlyFourth threeFailThenOk).success = 0 ∧
    (sequentialRun succeedsOnlyFourth threeFailThenOk).failed = 3 ∧
    (chunkRun succeedsOnlyFourth (fun _ => true) threeFailThenOk).success = 1 ∧
    (chunkRun succeedsOnlyFourth (fun _ => true) threeFailThenOk).failed = 3 ∧
    (sequentialRun succeedsOnlyFourth threeFailThenOk).trace =
      [ChunkEv.attempt "1" false, ChunkEv.attempt "2" false, ChunkEv.attempt "3" false] ∧
    (chunkRun succeedsOnlyFourth (fun _ => true) threeFailThenOk).trace =
      [ChunkEv.attempt "1" false, ChunkEv.attempt "2" false, ChunkEv.attempt "3" false,
       ChunkEv.reacquire true, ChunkEv.attempt "4" true] := by
  refine ⟨rfl, rfl, rfl, rfl, rfl, rfl⟩

/-! ## Claim C4 -/

theorem tryCatchM_pure_false_isOk (m : StM Bool) (st : SubSt) :
    isOkResult (tryCatchM m (fun _ => pure false) st).1 = true := by
  rw [tryCatchM]
  rcases hm : m st with ⟨r, st2⟩
  rcases r with e | b <;> rfl

/-- Claim C4: with an initialized page, `submitPlay` never lets an
exception escape, for every fault environment and every record: whatever
page interactions throw (a control not found under exact or partial match
makes the click primitive throw), the outer catch converts the fault into
a normal `false` return; the explicit modular-sets page-mismatch check
also returns `false` (without ever reaching the Submit click); and a
fault-free run returns `true`. -/
theorem submitPlay_faults_to_failure :
    (∀ (env : Env) (play : PlayData), isOkResult (submitPlay true env play).1 = true) ∧
    (submitPlay true allThrowEnv samplePlay).1 = Except.ok false ∧
    (submitPlay true noModularPageEnv samplePlay).1 = Except.ok false ∧
    (submitPlay true noModularPageEnv samplePlay).2.count PageAction.clickSubmit = 0 ∧
    (submitPlay true benignEnv samplePlay).1 = Except.ok true := by
  refine ⟨?_, rfl, rfl, rfl, rfl⟩
  intro env play
  rw [submitPlay, if_pos (by trivial)]
  have h := tryCatchM_pure_false_isOk (submitPlayBody env play) (0, [])
  rcases hm : tryCatchM (submitPlayBody env play) (fun _ => pure false) (0, []) with ⟨r, k, tr⟩
  rw [hm] at h
  exact h

/-! ## Claim C2 -/

/-- Claim C2 fails on the code: the `FormSubmitter` of the source stores
no dry-run flag (its constructor takes only the worker id) and
`submitPlay` clicks Submit unconditionally, so under a dry-run
configuration the form is still submitted: a fault-free `submitPlay` run
performs exactly one Submit click and reports success, while the spec's
dry-run submit step (`specSubmitClickCount true`) performs none. -/
theorem submitPlay_always_clicks_submit :
    (submitPlay true benignEnv samplePlay).2.count PageAction.clickSubmit = 1 ∧
    (submitPlay true benignEnv samplePlay).1 = Except.ok true ∧
    specSubmitClickCount true = 0 ∧
    specSubmitClickCount false = 1 :=
  ⟨rfl, rfl, rfl, rfl⟩
